import Mathlib

/-!
Shallow embedding of the core of the `messaging-service` Go repository:
contact normalization, retry-with-backoff, timestamp validation, inbound
webhook idempotency and the conversation query service, together with
theorems settling the specification claims about them.

Go strings are modelled as lists of characters (`GoStr`); Go's byte-wise
lexicographic string comparison coincides with character-wise comparison
on the inputs of interest. Machine integers (`time.Duration`, `int`) are
modelled as `Int` with explicit two's-complement wrapping where overflow
could matter.
-/

/-- Go strings, modelled as lists of characters. -/
abbrev GoStr := List Char

/-- Converts a Lean string literal to the Go string model. -/
def gostr (s : String) : GoStr := s.toList

/-- Go's byte-wise lexicographic `<` on strings (`a < b`), modelled
character-wise. -/
def goLt : GoStr → GoStr → Bool
  | [], [] => false
  | [], _ :: _ => true
  | _ :: _, [] => false
  | a :: as, b :: bs =>
    if a.toNat < b.toNat then true
    else if b.toNat < a.toNat then false
    else goLt as bs

/-- Go `strings.ReplaceAll s (String.mk [c]) ""`: removes every occurrence
of the character `c`. -/
def removeChar (c : Char) (s : GoStr) : GoStr :=
  s.filter (fun x => x ≠ c)

/-- Go `strings.Contains s "@"` for a single-character needle. -/
def containsChar (c : Char) (s : GoStr) : Bool :=
  s.any (fun x => x = c)

/-- Source translation of `messagingService.normalizeContacts`
(src/internal/service/messaging_service.go lines 290-307): if both original
addresses contain `@`, the two-element slice is sorted by `sort.Strings`
(swap exactly when the second compares below the first); otherwise only `-`
is stripped and the originals are returned ordered by comparison of the
`-`-stripped forms. -/
def msgNormalizeContacts (customerContact businessContact : GoStr) : GoStr × GoStr :=
  if containsChar '@' customerContact ∧ containsChar '@' businessContact then
    if goLt businessContact customerContact then (businessContact, customerContact)
    else (customerContact, businessContact)
  else
    let cleanCustomer := removeChar '-' customerContact
    let cleanBusiness := removeChar '-' businessContact
    if goLt cleanCustomer cleanBusiness then (customerContact, businessContact)
    else (businessContact, customerContact)

/-- Strips the four formatting characters in the order the source applies
`strings.ReplaceAll`: `-`, space, `(`, `)`. -/
def stripFormatting (s : GoStr) : GoStr :=
  removeChar ')' (removeChar '(' (removeChar ' ' (removeChar '-' s)))

/-- Source translation of `conversationService.normalizeContacts`
(src/internal/service/conversation_service.go lines 26-53): strips `-`,
space, `(`, `)` from both addresses and returns the *stripped* values; both
the email branch and the phone branch order them identically. -/
def convNormalizeContacts (customerContact businessContact : GoStr) : GoStr × GoStr :=
  let customer := stripFormatting customerContact
  let business := stripFormatting businessContact
  if containsChar '@' customer ∧ containsChar '@' business then
    if goLt customer business then (customer, business)
    else (business, customer)
  else
    if goLt customer business then (customer, business)
    else (business, customer)

/-- Normalization as the specification describes it: strip `-`, space, `(`,
`)` from both addresses; if both stripped forms contain `@`, return the two
original addresses sorted ascending; otherwise return the two original
addresses ordered by ascending comparison of the stripped forms. -/
def specNormalizeContacts (a b : GoStr) : GoStr × GoStr :=
  let sa := stripFormatting a
  let sb := stripFormatting b
  if containsChar '@' sa ∧ containsChar '@' sb then
    if goLt b a then (b, a) else (a, b)
  else
    if goLt sa sb then (a, b) else (b, a)

/-- Amended description of `messagingService.normalizeContacts`: strip only
`-` from both addresses; if both stripped addresses contain `@`, return the
two original addresses sorted ascending; otherwise return the two original
addresses ordered by ascending comparison of their `-`-stripped forms (ties
yield the swapped pair). -/
def msgNormalizeAmended (a b : GoStr) : GoStr × GoStr :=
  let sa := removeChar '-' a
  let sb := removeChar '-' b
  if containsChar '@' sa ∧ containsChar '@' sb then
    if goLt b a then (b, a) else (a, b)
  else
    if goLt sa sb then (a, b) else (b, a)

/-- Amended description of `conversationService.normalizeContacts`: strip
`-`, space, `(` and `)` from both addresses and return the two *stripped*
addresses sorted lexicographically ascending (in both branches). -/
def convNormalizeAmended (a b : GoStr) : GoStr × GoStr :=
  let sa := stripFormatting a
  let sb := stripFormatting b
  if goLt sb sa then (sb, sa) else (sa, sb)

/-- Go error values reaching the retry engine: either a typed
`*domain.ProviderError` (code, message, retry-after seconds,
src/unnamed/part_003 lines 156-165) or any other error value. -/
inductive GoErr where
  | provider (code : Int) (msg : GoStr) (retryAfter : Int)
  | generic (msg : GoStr)
deriving DecidableEq

/-- Source translation of `domain.IsRetryableError`
(src/unnamed/part_003 lines 167-174). -/
def isRetryableErr : GoErr → Bool
  | .provider code _ _ =>
      code = 429 ∨ code = 500 ∨ code = 502 ∨ code = 503 ∨ code = 504
  | .generic _ => false

/-- Source translation of `domain.GetRetryAfterSeconds`
(src/unnamed/part_003 lines 176-182). -/
def getRetryAfterSeconds : GoErr → Int
  | .provider code _ retryAfter => if code = 429 then retryAfter else 0
  | .generic _ => 0

/-- Two's-complement 64-bit wrap, modelling Go `int64`/`time.Duration`
arithmetic. -/
def wrap64 (z : Int) : Int :=
  (z + 9223372036854775808) % 18446744073709551616 - 9223372036854775808

/-- Retry configuration (src/internal/service/messaging_service.go lines
21-27); delays are `time.Duration` nanoseconds. The Go struct also carries
an unused `Multiplier float64` field that the retry loop never reads; it is
omitted here. -/
structure RetryConfig where
  maxRetries : Nat
  baseDelay : Int
  maxDelay : Int
deriving DecidableEq

/-- Delay computation of one retry round (src/internal/service/
messaging_service.go lines 225-242): exponential backoff
`baseDelay * (1 << attempt)` capped at `maxDelay`, then overridden by a
positive retry-after hint (`retryAfter` seconds converted to nanoseconds,
again capped at `maxDelay`). -/
def computeDelay (cfg : RetryConfig) (attempt : Nat) (e : GoErr) : Int :=
  let delay0 := wrap64 (cfg.baseDelay * wrap64 (2 ^ attempt))
  let delay1 := if delay0 > cfg.maxDelay then cfg.maxDelay else delay0
  let retryAfter := getRetryAfterSeconds e
  if retryAfter > 0 then
    let retryDelay := wrap64 (retryAfter * 1000000000)
    if retryDelay < cfg.maxDelay then retryDelay else cfg.maxDelay
  else delay1

/-- Observable outcome of `retryWithBackoff`: final result (`none` means
success), number of invocations of the wrapped operation, and the backoff
delays waited between attempts. -/
structure RetryTrace where
  result : Option GoErr
  attempts : Nat
  delays : List Int
deriving DecidableEq

/-- Loop body of `retryWithBackoff` (src/internal/service/
messaging_service.go lines 207-254). The operation is modelled as a
function from the 0-based attempt index to its outcome; `fuel` counts the
loop iterations left (`attempt <= maxRetries`). Context cancellation during
the inter-attempt sleep is not modelled; the trace records the waits. -/
def retryAux (cfg : RetryConfig) (op : Nat → Option GoErr) :
    Nat → Nat → RetryTrace
  | 0, _ => ⟨some (.generic (gostr "max retries exceeded")), 0, []⟩
  | fuel + 1, attempt =>
    match op attempt with
    | none => ⟨none, 1, []⟩
    | some e =>
      if isRetryableErr e = false then ⟨some e, 1, []⟩
      else if attempt = cfg.maxRetries then ⟨some e, 1, []⟩
      else
        let d := computeDelay cfg attempt e
        let t := retryAux cfg op fuel (attempt + 1)
        ⟨t.result, t.attempts + 1, d :: t.delays⟩

/-- Source translation of `messagingService.retryWithBackoff`: run the
loop from attempt 0 with `maxRetries + 1` iterations available. -/
def retryWithBackoff (cfg : RetryConfig) (op : Nat → Option GoErr) :
    RetryTrace :=
  retryAux cfg op (cfg.maxRetries + 1) 0

/-- Attempt `i` of the operation fails with a retryable error. -/
def failsRetryable (op : Nat → Option GoErr) (i : Nat) : Prop :=
  ∃ e, op i = some e ∧ isRetryableErr e = true

/-- Claim-side condition: the error is a rate-limit `ProviderError`
(code 429) carrying a positive retry-after hint, with that hint. -/
def rateLimitRetryAfter : GoErr → Option Int
  | .provider c _ ra => if c = 429 ∧ 0 < ra then some ra else none
  | .generic _ => none

/-- Retry configuration used by the concrete witnesses: the values of
`TestRetryConfig` (maxRetries 3, base delay 10ms, max delay 100ms). -/
def cfgTest : RetryConfig := ⟨3, 10000000, 100000000⟩

/-- Provider that always fails with HTTP 500. -/
def opAlways500 : Nat → Option GoErr := fun _ => some (.provider 500 [] 0)

/-- Provider that fails with a non-retryable HTTP 400 error. -/
def opBad400 : Nat → Option GoErr := fun _ => some (.provider 400 [] 0)

/-- Provider that fails with HTTP 503 on the first two attempts and then
succeeds. -/
def opThirdTry : Nat → Option GoErr :=
  fun i => if i < 2 then some (.provider 503 [] 0) else none


/-- Location of a Go `time.Time`: `time.UTC` or any other `*time.Location`
(validateTimestamp only distinguishes UTC from everything else). -/
inductive GoLoc where
  | utc
  | other
deriving DecidableEq

/-- Go `time.Time`, modelled as whole nanoseconds since the Unix epoch plus
the location. -/
structure GoTime where
  nsec : Int
  loc : GoLoc
deriving DecidableEq

/-- Nanoseconds (relative to the Unix epoch) of Go's zero `time.Time`,
0001-01-01T00:00:00 UTC. -/
def goZeroNsec : Int := -62135596800 * 1000000000

/-- Go `t.IsZero()`: the instant is the zero Time. -/
def goTimeIsZero (t : GoTime) : Bool := t.nsec = goZeroNsec

/-- Proleptic-Gregorian conversion from days since 1970-01-01 to a civil
date `(year, month, day)`. -/
def civilFromDays (z : Int) : Int × Int × Int :=
  let zs := z + 719468
  let era := Int.ediv zs 146097
  let doe := zs - era * 146097
  let yoe := Int.ediv
    (doe - Int.ediv doe 1460 + Int.ediv doe 36524 - Int.ediv doe 146096) 365
  let y := yoe + era * 400
  let doy := doe - (365 * yoe + Int.ediv yoe 4 - Int.ediv yoe 100)
  let mp := Int.ediv (5 * doy + 2) 153
  let d := doy - Int.ediv (153 * mp + 2) 5 + 1
  let m := mp + (if mp < 10 then 3 else -9)
  (y + (if m ≤ 2 then 1 else 0), m, d)

/-- Proleptic-Gregorian conversion from a civil date to days since
1970-01-01; a day-of-month past the end of the target month rolls forward,
exactly as Go's `time.Date` normalization does (Feb 29 minus ten years
becomes Mar 1). -/
def daysFromCivil (y m d : Int) : Int :=
  let ya := y - (if m ≤ 2 then 1 else 0)
  let era := Int.ediv ya 400
  let yoe := ya - era * 400
  let mp := m + (if 2 < m then -3 else 9)
  let doy := Int.ediv (153 * mp + 2) 5 + d - 1
  let doe := yoe * 365 + Int.ediv yoe 4 - Int.ediv yoe 100 + doy
  era * 146097 + doe - 719468

/-- Go `t.AddDate(years, 0, 0)`: shift the civil year of the instant,
keeping month, day and time-of-day, with `time.Date` normalization. -/
def addYears (t : GoTime) (dy : Int) : GoTime :=
  let day := Int.ediv t.nsec 86400000000000
  let rem := t.nsec - day * 86400000000000
  let c := civilFromDays day
  let day2 := daysFromCivil (c.1 + dy) c.2.1 c.2.2
  ⟨day2 * 86400000000000 + rem, t.loc⟩

/-- Rejection reasons of `validateTimestamp`, in source order. -/
inductive TsErr where
  | notUTC
  | zeroTime
  | inFuture
  | tooOld
  | beforeYear2000
deriving DecidableEq

/-- Nanoseconds of the epoch constant 2000-01-01T00:00:00Z. -/
def year2000Nsec : Int := 946684800 * 1000000000

/-- Source translation of `messagingService.validateTimestamp`
(src/internal/service/messaging_service.go lines 352-385), parameterized by
the current time `now` (the source uses `time.Now().UTC()`; only the
instant of `now` matters): reject non-UTC locations, the zero Time,
timestamps after `now + 5min`, timestamps before `now.AddDate(-10,0,0)`,
and timestamps before 2000-01-01T00:00:00Z. -/
def validateTimestamp (now t : GoTime) : Option TsErr :=
  if t.loc ≠ GoLoc.utc then some .notUTC
  else if goTimeIsZero t then some .zeroTime
  else if t.nsec > now.nsec + 300000000000 then some .inFuture
  else if t.nsec < (addYears now (-10)).nsec then some .tooOld
  else if t.nsec < year2000Nsec then some .beforeYear2000
  else none

/-- Reference current time used by concrete boundary checks:
2026-01-01T00:00:00Z. -/
def nowRef : GoTime := ⟨1767225600 * 1000000000, .utc⟩


/-- Go `unicode.IsSpace` on the Latin-1 range (space, tab, newline,
vertical tab, form feed, carriage return, NEL, NBSP); whitespace above
U+00FF is not modelled. -/
def isGoSpace (c : Char) : Bool :=
  c = ' ' ∨ c = '\t' ∨ c = '\n' ∨ c.toNat = 11 ∨ c.toNat = 12 ∨
    c = '\r' ∨ c.toNat = 133 ∨ c.toNat = 160

/-- Go `strings.TrimSpace`. -/
def goTrimSpace (s : GoStr) : GoStr :=
  ((s.dropWhile isGoSpace).reverse.dropWhile isGoSpace).reverse

/-- Go's zero `time.Time` value. -/
def goZeroTime : GoTime := ⟨goZeroNsec, .utc⟩

/-- Domain `Message` (src/unnamed/part_003 lines 18-34), restricted to the
fields the core reads or writes. -/
structure Message where
  id : Nat
  conversationId : Nat
  fromAddr : GoStr
  toAddr : GoStr
  type : GoStr
  body : GoStr
  attachments : List GoStr
  status : GoStr
  timestamp : GoTime
  messagingProviderId : Option GoStr
  createdAt : GoTime
  updatedAt : GoTime
deriving DecidableEq

/-- Domain `Conversation` (src/unnamed/part_003 lines 36-44). -/
structure Conversation where
  id : Nat
  customerContact : GoStr
  businessContact : GoStr
  createdAt : GoTime
  updatedAt : GoTime
  messages : List Message
deriving DecidableEq

/-- Persistent state of the postgres `conversations` and `messages` tables
(schema in src/bin/test.sh): rows in insertion order with `SERIAL` id
counters. The model executes SQL deterministically and without driver
errors; a failing repository call is injected explicitly where a claim
needs it (`handleInboundSMSWith`). -/
structure Store where
  conversations : List Conversation
  messages : List Message
  nextConvId : Nat
  nextMsgId : Nat
deriving DecidableEq

/-- Source translation of `messageRepository.GetByProviderMessageID`
(src/internal/container/container.go lines 401-441, package postgres):
`SELECT ... FROM messages WHERE provider_message_id = $1` via `QueryRow` —
the first stored row carrying the provider message id, `nil` when
`sql.ErrNoRows`. Rows with a NULL provider id never match. -/
def getByProviderMessageId (st : Store) (pid : GoStr) : Option Message :=
  st.messages.find? (fun m => m.messagingProviderId = some pid)

/-- Source translation of `conversationRepository.GetByContacts`
(container.go lines 142-166): the lookup matches the contact pair in
either order — `(customer_contact = $1 AND business_contact = $2) OR
(customer_contact = $2 AND business_contact = $1)`. -/
def getByContacts (st : Store) (customerContact businessContact : GoStr) :
    Option Conversation :=
  st.conversations.find? (fun cv =>
    (cv.customerContact = customerContact ∧
      cv.businessContact = businessContact) ∨
    (cv.customerContact = businessContact ∧
      cv.businessContact = customerContact))

/-- Source translation of `conversationRepository.Create` (container.go
lines 93-114): `INSERT INTO conversations ... RETURNING id`; the id comes
from the `SERIAL` counter and `created_at`/`updated_at` from the
`CURRENT_TIMESTAMP` column defaults, modelled by `now`. -/
def convCreate (st : Store) (now : GoTime)
    (customerContact businessContact : GoStr) : Conversation × Store :=
  let cv : Conversation :=
    ⟨st.nextConvId, customerContact, businessContact, now, now, []⟩
  (cv, { st with conversations := st.conversations ++ [cv],
                 nextConvId := st.nextConvId + 1 })

/-- Source translation of `conversationRepository.GetOrCreate`
(container.go lines 168-181): `GetByContacts`, then `Create` when the pair
is absent. -/
def getOrCreate (st : Store) (now : GoTime)
    (customerContact businessContact : GoStr) : Conversation × Store :=
  match getByContacts st customerContact businessContact with
  | some cv => (cv, st)
  | none => convCreate st now customerContact businessContact

/-- Source translation of `messageRepository.Create` (container.go lines
325-357): `INSERT INTO messages ... RETURNING id` assigning the next
`SERIAL` id; all other fields are stored as given. -/
def msgCreate (st : Store) (m : Message) : Store :=
  { st with messages := st.messages ++ [{ m with id := st.nextMsgId }],
            nextMsgId := st.nextMsgId + 1 }

/-- Number of stored messages carrying the given provider message id. -/
def countByProviderId (st : Store) (pid : GoStr) : Nat :=
  (st.messages.filter (fun m => m.messagingProviderId = some pid)).length

/-- Validation failures, in the order the source checks them. -/
inductive ValErr where
  | emptyFrom
  | emptyTo
  | emptyBody
  | badType
  | emptyProviderId
  | badTimestamp (e : TsErr)
deriving DecidableEq

/-- Errors surfaced by the messaging service operations. -/
inductive SvcErr where
  | invalidRequest (v : ValErr)
  | providerFailure (e : GoErr)
deriving DecidableEq

/-- Domain `SendSMSRequest` (src/unnamed/part_003 lines 88-96). -/
structure SendSMSRequest where
  fromAddr : GoStr
  toAddr : GoStr
  type : GoStr
  body : GoStr
  attachments : List GoStr
  timestamp : GoTime
deriving DecidableEq

/-- Domain `SendEmailRequest` (src/unnamed/part_003 lines 103-110). -/
structure SendEmailRequest where
  fromAddr : GoStr
  toAddr : GoStr
  body : GoStr
  attachments : List GoStr
  timestamp : GoTime
deriving DecidableEq

/-- Domain `InboundSMSWebhook` (src/unnamed/part_003 lines 65-74). -/
structure InboundSMSWebhook where
  fromAddr : GoStr
  toAddr : GoStr
  type : GoStr
  messagingProviderId : GoStr
  body : GoStr
  attachments : List GoStr
  timestamp : GoTime
deriving DecidableEq

/-- Domain `InboundEmailWebhook` (src/unnamed/part_003 lines 76-84). -/
structure InboundEmailWebhook where
  fromAddr : GoStr
  toAddr : GoStr
  xillioId : GoStr
  body : GoStr
  attachments : List GoStr
  timestamp : GoTime
deriving DecidableEq

/-- Source translation of `validateSMSRequest` (messaging_service.go lines
309-330; the nil-request check is unrepresentable here). -/
def validateSMSRequest (now : GoTime) (req : SendSMSRequest) :
    Option ValErr :=
  if goTrimSpace req.fromAddr = [] then some .emptyFrom
  else if goTrimSpace req.toAddr = [] then some .emptyTo
  else if goTrimSpace req.body = [] then some .emptyBody
  else if req.type ≠ gostr "sms" ∧ req.type ≠ gostr "mms" then some .badType
  else
    match validateTimestamp now req.timestamp with
    | some e => some (.badTimestamp e)
    | none => none

/-- Source translation of `validateEmailRequest` (lines 332-350). -/
def validateEmailRequest (now : GoTime) (req : SendEmailRequest) :
    Option ValErr :=
  if goTrimSpace req.fromAddr = [] then some .emptyFrom
  else if goTrimSpace req.toAddr = [] then some .emptyTo
  else if goTrimSpace req.body = [] then some .emptyBody
  else
    match validateTimestamp now req.timestamp with
    | some e => some (.badTimestamp e)
    | none => none

/-- Source translation of `validateInboundSMSWebhook` (lines 387-411). -/
def validateInboundSMSWebhook (now : GoTime) (w : InboundSMSWebhook) :
    Option ValErr :=
  if goTrimSpace w.fromAddr = [] then some .emptyFrom
  else if goTrimSpace w.toAddr = [] then some .emptyTo
  else if goTrimSpace w.body = [] then some .emptyBody
  else if w.type ≠ gostr "sms" ∧ w.type ≠ gostr "mms" then some .badType
  else if goTrimSpace w.messagingProviderId = [] then some .emptyProviderId
  else
    match validateTimestamp now w.timestamp with
    | some e => some (.badTimestamp e)
    | none => none

/-- Source translation of `validateInboundEmailWebhook` (lines 413-434). -/
def validateInboundEmailWebhook (now : GoTime) (w : InboundEmailWebhook) :
    Option ValErr :=
  if goTrimSpace w.fromAddr = [] then some .emptyFrom
  else if goTrimSpace w.toAddr = [] then some .emptyTo
  else if goTrimSpace w.body = [] then some .emptyBody
  else if goTrimSpace w.xillioId = [] then some .emptyProviderId
  else
    match validateTimestamp now w.timestamp with
    | some e => some (.badTimestamp e)
    | none => none

/-- Source translation of `buildOutboundMessage` (lines 162-176):
status `pending`, timestamp converted to UTC. -/
def buildOutboundMessage (fromA toA ty body : GoStr) (atts : List GoStr)
    (ts : GoTime) : Message :=
  ⟨0, 0, fromA, toA, ty, body, atts, gostr "pending", ⟨ts.nsec, .utc⟩,
    none, goZeroTime, goZeroTime⟩

/-- Source translation of `buildInboundMessage` (lines 178-193):
status `delivered`, timestamp converted to UTC, provider id attached. -/
def buildInboundMessage (fromA toA ty body : GoStr) (atts : List GoStr)
    (ts : GoTime) (pid : GoStr) : Message :=
  ⟨0, 0, fromA, toA, ty, body, atts, gostr "delivered", ⟨ts.nsec, .utc⟩,
    some pid, goZeroTime, goZeroTime⟩

/-- Source translation of `createMessageRecord` (lines 270-288): normalize
the contacts with the messaging-service normalization, get-or-create the
conversation, stamp the message and insert it. The modelled stores never
fail, so the error component is always `none`. -/
def createMessageRecord (now : GoTime) (st : Store) (m : Message) :
    Option SvcErr × Store :=
  let p := msgNormalizeContacts m.fromAddr m.toAddr
  let r := getOrCreate st now p.1 p.2
  let m2 := { m with conversationId := r.1.id, createdAt := now,
                     updatedAt := now }
  (none, msgCreate r.2 m2)

/-- Source translation of `HandleInboundSMS` (lines 122-140) with the
result of the `GetByProviderMessageID` repository call passed explicitly:
the duplicate-suppression branch fires only when the lookup returned no
error and a non-nil message. -/
def handleInboundSMSWith (now : GoTime) (st : Store) (w : InboundSMSWebhook)
    (lookupRes : Except GoStr (Option Message)) : Option SvcErr × Store :=
  match validateInboundSMSWebhook now w with
  | some v => (some (.invalidRequest v), st)
  | none =>
    match lookupRes with
    | .ok (some _) => (none, st)
    | _ =>
      createMessageRecord now st
        (buildInboundMessage w.fromAddr w.toAddr w.type w.body
          w.attachments w.timestamp w.messagingProviderId)

/-- `HandleInboundSMS` against the modelled message store (error-free
lookup). -/
def handleInboundSMS (now : GoTime) (st : Store) (w : InboundSMSWebhook) :
    Option SvcErr × Store :=
  handleInboundSMSWith now st w
    (.ok (getByProviderMessageId st w.messagingProviderId))

/-- Source translation of `HandleInboundEmail` (lines 142-160), keyed on
the `XillioID`, with the lookup result passed explicitly. -/
def handleInboundEmailWith (now : GoTime) (st : Store)
    (w : InboundEmailWebhook) (lookupRes : Except GoStr (Option Message)) :
    Option SvcErr × Store :=
  match validateInboundEmailWebhook now w with
  | some v => (some (.invalidRequest v), st)
  | none =>
    match lookupRes with
    | .ok (some _) => (none, st)
    | _ =>
      createMessageRecord now st
        (buildInboundMessage w.fromAddr w.toAddr (gostr "email") w.body
          w.attachments w.timestamp w.xillioId)

/-- `HandleInboundEmail` against the modelled message store. -/
def handleInboundEmail (now : GoTime) (st : Store)
    (w : InboundEmailWebhook) : Option SvcErr × Store :=
  handleInboundEmailWith now st w
    (.ok (getByProviderMessageId st w.xillioId))

/-- Source translation of `SendSMS` (lines 82-100): validate, send through
the provider with retry, then create the message record. The provider
operation is the function passed to the retry engine. -/
def sendSMS (cfg : RetryConfig) (now : GoTime) (st : Store)
    (req : SendSMSRequest) (op : Nat → Option GoErr) :
    Option SvcErr × Store :=
  match validateSMSRequest now req with
  | some v => (some (.invalidRequest v), st)
  | none =>
    match (retryWithBackoff cfg op).result with
    | some e => (some (.providerFailure e), st)
    | none =>
      createMessageRecord now st
        (buildOutboundMessage req.fromAddr req.toAddr req.type req.body
          req.attachments req.timestamp)

/-- Source translation of `SendEmail` (lines 102-120). -/
def sendEmail (cfg : RetryConfig) (now : GoTime) (st : Store)
    (req : SendEmailRequest) (op : Nat → Option GoErr) :
    Option SvcErr × Store :=
  match validateEmailRequest now req with
  | some v => (some (.invalidRequest v), st)
  | none =>
    match (retryWithBackoff cfg op).result with
    | some e => (some (.providerFailure e), st)
    | none =>
      createMessageRecord now st
        (buildOutboundMessage req.fromAddr req.toAddr (gostr "email")
          req.body req.attachments req.timestamp)

/-- Domain `ConversationQuery` (src/unnamed/part_003 lines 122-135),
restricted to the fields the service reads. -/
structure ConversationQuery where
  limit : Int
  offset : Int
  sortBy : GoStr
  sortOrder : GoStr
  includeMessages : Bool
deriving DecidableEq

/-- Domain `GetConversationsResponse` (src/unnamed/part_003 lines
137-144). -/
structure GetConversationsResponse where
  conversations : List Conversation
  total : Int
  page : Int
  perPage : Int
  hasMore : Bool
deriving DecidableEq

/-- Default-filling prefix of `GetConversations`
(src/internal/service/conversation_service.go lines 56-68). -/
def effectiveQuery (q : ConversationQuery) : ConversationQuery :=
  let q1 := if q.limit ≤ 0 then { q with limit := 50 } else q
  let q2 := if q1.offset < 0 then { q1 with offset := 0 } else q1
  let q3 := if q2.sortBy = [] then { q2 with sortBy := gostr "updated_at" }
    else q2
  if q3.sortOrder = [] then { q3 with sortOrder := gostr "desc" } else q3

/-- Source translation of `conversationService.GetConversations` (lines
55-97). The repository `List` call and the per-conversation message fetch
(their postgres implementations live in src/internal/container/container.go)
are abstracted as universally quantified function parameters;
`Int.tdiv` is Go's truncating integer division. -/
def getConversations (repoList : ConversationQuery → List Conversation × Int)
    (msgsOf : Nat → List Message) (q : ConversationQuery) :
    GetConversationsResponse :=
  let q1 := effectiveQuery q
  let res := repoList q1
  let convs := if q1.includeMessages then
      res.1.map (fun c => { c with messages := msgsOf c.id })
    else res.1
  { conversations := convs
    total := res.2
    page := Int.tdiv q1.offset q1.limit + 1
    perPage := q1.limit
    hasMore := decide (q1.offset + q1.limit < res.2) }

/-- Concrete inbound SMS webhook used by witnesses. -/
def wRef : InboundSMSWebhook :=
  ⟨gostr "+12016661234", gostr "+18045551234", gostr "sms",
    gostr "message-1", gostr "hi", [], ⟨1767225600 * 1000000000, .utc⟩⟩

/-- Concrete outbound SMS request used by witnesses. -/
def reqRef : SendSMSRequest :=
  ⟨gostr "+12016661234", gostr "+18045551234", gostr "sms", gostr "hi",
    [], ⟨1767225600 * 1000000000, .utc⟩⟩

/-- Provider operation that always succeeds. -/
def opOk : Nat → Option GoErr := fun _ => none

/-- Empty store used by witnesses. -/
def stEmpty : Store := ⟨[], [], 1, 1⟩

/-- Stored message already carrying the provider id `message-1`. -/
def msgRef : Message :=
  ⟨1, 1, gostr "+18045551234", gostr "+12016661234", gostr "sms",
    gostr "hello", [], gostr "delivered", ⟨1767225600 * 1000000000, .utc⟩,
    some (gostr "message-1"), ⟨1767225600 * 1000000000, .utc⟩,
    ⟨1767225600 * 1000000000, .utc⟩⟩

/-- Store already containing `msgRef`. -/
def stWithMsg : Store := ⟨[], [msgRef], 1, 2⟩


-- Basic facts about the comparison.

theorem goLt_asymm : ∀ a b : GoStr, goLt a b = true → goLt b a = false := by
  intro a
  induction a with
  | nil => intro b h; cases b <;> simp_all [goLt]
  | cons c cs ih =>
    intro b h
    cases b with
    | nil => simp [goLt] at h
    | cons d ds =>
      simp only [goLt] at h ⊢
      by_cases h1 : c.toNat < d.toNat
      · have h2 : ¬ d.toNat < c.toNat := Nat.lt_asymm h1
        simp [h1, h2]
      · by_cases h2 : d.toNat < c.toNat
        · simp [h1, h2] at h
        · simp only [h1, h2, if_false] at h ⊢
          exact ih ds h

theorem goLt_eq_of_not_lt : ∀ a b : GoStr,
    goLt a b = false → goLt b a = false → a = b := by
  intro a
  induction a with
  | nil => intro b h1 h2; cases b <;> simp_all [goLt]
  | cons c cs ih =>
    intro b h1 h2
    cases b with
    | nil => simp [goLt] at h2
    | cons d ds =>
      simp only [goLt] at h1 h2
      by_cases hc : c.toNat < d.toNat
      · simp [hc] at h1
      · by_cases hd : d.toNat < c.toNat
        · simp [hd, Nat.lt_asymm hd] at h2
        · simp only [hc, hd, if_false] at h1 h2
          have hcd : c = d := by
            have : c.toNat = d.toNat := Nat.le_antisymm
              (Nat.le_of_not_lt hd) (Nat.le_of_not_lt hc)
            exact Char.eq_of_val_eq (by
              apply UInt32.eq_of_val_eq
              exact Fin.ext this)
          subst hcd
          rw [ih ds h1 h2]

/-- Characters `-`, space, `(`, `)` that the repository treats as phone
formatting. -/
def hasFormattingChar (s : GoStr) : Bool :=
  s.any (fun c => c = '-' ∨ c = ' ' ∨ c = '(' ∨ c = ')')

theorem containsChar_removeChar (c d : Char) (hcd : c ≠ d) (s : GoStr) :
    containsChar c (removeChar d s) = containsChar c s := by
  induction s with
  | nil => rfl
  | cons x xs ih =>
    simp only [containsChar, removeChar, List.filter_cons] at *
    by_cases hx : x = d
    · subst hx
      simp only [List.any_cons]
      have : ¬ (decide (x = c) = true) := by
        simp only [decide_eq_true_eq]
        intro h; exact hcd h.symm
      simp_all [containsChar, removeChar]
    · simp_all [containsChar, removeChar]

theorem removeChar_eq_self_of_not_mem (d : Char) (s : GoStr)
    (h : containsChar d s = false) : removeChar d s = s := by
  induction s with
  | nil => rfl
  | cons x xs ih =>
    simp only [containsChar, List.any_cons, Bool.or_eq_false_iff,
      decide_eq_false_iff_not] at h
    have h2 := ih h.2
    simp only [removeChar, List.filter_cons] at h2 ⊢
    have hcond : (decide (x ≠ d)) = true := by simp [h.1]
    rw [hcond, if_pos rfl, h2]

theorem no_formatting_contains (s : GoStr) (h : hasFormattingChar s = false) :
    containsChar '-' s = false ∧ containsChar ' ' s = false ∧
      containsChar '(' s = false ∧ containsChar ')' s = false := by
  induction s with
  | nil => simp [containsChar]
  | cons x xs ih =>
    simp only [hasFormattingChar, List.any_cons, Bool.or_eq_false_iff,
      decide_eq_false_iff_not, not_or] at h
    obtain ⟨⟨hx1, hx2, hx3, hx4⟩, hxs⟩ := h
    have h2 := ih hxs
    refine ⟨?_, ?_, ?_, ?_⟩ <;>
      simp only [containsChar, List.any_cons, Bool.or_eq_false_iff,
        decide_eq_false_iff_not]
    · exact ⟨hx1, h2.1⟩
    · exact ⟨hx2, h2.2.1⟩
    · exact ⟨hx3, h2.2.2.1⟩
    · exact ⟨hx4, h2.2.2.2⟩

theorem stripFormatting_eq_self (s : GoStr) (h : hasFormattingChar s = false) :
    stripFormatting s = s := by
  obtain ⟨c1, c2, c3, c4⟩ := no_formatting_contains s h
  unfold stripFormatting
  rw [removeChar_eq_self_of_not_mem _ _ c1, removeChar_eq_self_of_not_mem _ _ c2,
    removeChar_eq_self_of_not_mem _ _ c3, removeChar_eq_self_of_not_mem _ _ c4]

theorem convNormalize_eq_minmax (a b : GoStr) :
    convNormalizeContacts a b =
      (if goLt (stripFormatting a) (stripFormatting b)
        then (stripFormatting a, stripFormatting b)
        else (stripFormatting b, stripFormatting a)) := by
  simp only [convNormalizeContacts]
  rw [ite_self]

theorem sort_two_swap (a b : GoStr) :
    (if goLt b a then (b, a) else (a, b)) =
      (if goLt a b then (a, b) else (b, a)) := by
  cases h1 : goLt a b with
  | true =>
    have h2 := goLt_asymm _ _ h1
    simp [h2]
  | false =>
    cases h2 : goLt b a with
    | true => simp [h2]
    | false => simp [h2, goLt_eq_of_not_lt _ _ h1 h2]

theorem msgNormalize_comm_of_email (a b : GoStr)
    (ha : containsChar '@' a = true) (hb : containsChar '@' b = true) :
    msgNormalizeContacts a b = msgNormalizeContacts b a := by
  simp only [msgNormalizeContacts]
  have hc1 : containsChar '@' a = true ∧ containsChar '@' b = true := ⟨ha, hb⟩
  have hc2 : containsChar '@' b = true ∧ containsChar '@' a = true := ⟨hb, ha⟩
  rw [if_pos hc1, if_pos hc2]
  exact sort_two_swap a b

theorem msgNormalize_comm_of_strip_ne (a b : GoStr)
    (h : removeChar '-' a ≠ removeChar '-' b) :
    msgNormalizeContacts a b = msgNormalizeContacts b a := by
  by_cases hemail : containsChar '@' a = true ∧ containsChar '@' b = true
  · exact msgNormalize_comm_of_email a b hemail.1 hemail.2
  · simp only [msgNormalizeContacts]
    have hn1 : ¬(containsChar '@' a = true ∧ containsChar '@' b = true) := hemail
    have hn2 : ¬(containsChar '@' b = true ∧ containsChar '@' a = true) :=
      fun hc => hemail ⟨hc.2, hc.1⟩
    rw [if_neg hn1, if_neg hn2]
    cases h1 : goLt (removeChar '-' a) (removeChar '-' b) with
    | true =>
      have h2 := goLt_asymm _ _ h1
      simp [h1, h2]
    | false =>
      cases h2 : goLt (removeChar '-' b) (removeChar '-' a) with
      | true => simp [h1, h2]
      | false => exact absurd (goLt_eq_of_not_lt _ _ h1 h2) h


/-- C1 counterexample: on the pair `("(3)", "2")` neither normalization
function returns what the claim describes (the originals ordered by their
fully-stripped forms, i.e. `("2", "(3)")`): the messaging-service function
strips only `-` and returns `("(3)", "2")`, and the conversation-service
function returns the stripped values `("2", "3")`. -/
theorem normalizeContacts_spec_counterexample :
    msgNormalizeContacts (gostr "(3)") (gostr "2") ≠
        specNormalizeContacts (gostr "(3)") (gostr "2") ∧
      convNormalizeContacts (gostr "(3)") (gostr "2") ≠
        specNormalizeContacts (gostr "(3)") (gostr "2") := by
  constructor <;> decide

/-- C1 (amended): the messaging-service normalization strips only `-` and
returns the original addresses (emails sorted ascending, otherwise ordered
by the `-`-stripped forms), while the conversation-service normalization
strips `-`, space, `(`, `)` and returns the *stripped* addresses sorted
ascending. -/
theorem normalizeContacts_amended (a b : GoStr) :
    msgNormalizeContacts a b = msgNormalizeAmended a b ∧
    convNormalizeContacts a b = convNormalizeAmended a b := by
  constructor
  · simp only [msgNormalizeContacts, msgNormalizeAmended,
      containsChar_removeChar '@' '-' (by decide) a,
      containsChar_removeChar '@' '-' (by decide) b]
  · rw [convNormalize_eq_minmax]
    simp only [convNormalizeAmended]
    cases h1 : goLt (stripFormatting a) (stripFormatting b) with
    | true =>
      have h2 := goLt_asymm _ _ h1
      simp [h1, h2]
    | false =>
      cases h2 : goLt (stripFormatting b) (stripFormatting a) with
      | true => simp [h1, h2]
      | false => simp [h1, h2, goLt_eq_of_not_lt _ _ h1 h2]

/-- C2 counterexample: on `("1-2", "3")` the two normalization functions
disagree — the message-persistence-path one returns the original `"1-2"`
while the conversation-query one returns the stripped `"12"`. -/
theorem normalizeContacts_paths_differ :
    msgNormalizeContacts (gostr "1-2") (gostr "3") ≠
      convNormalizeContacts (gostr "1-2") (gostr "3") := by
  decide

/-- C2 (amended): the two normalization functions are not the same function;
they agree on every pair of addresses in which neither address contains any
of the formatting characters `-`, space, `(`, `)`. -/
theorem normalizeContacts_agree_on_unformatted (a b : GoStr)
    (ha : hasFormattingChar a = false) (hb : hasFormattingChar b = false) :
    msgNormalizeContacts a b = convNormalizeContacts a b := by
  have ra : removeChar '-' a = a :=
    removeChar_eq_self_of_not_mem _ _ (no_formatting_contains a ha).1
  have rb : removeChar '-' b = b :=
    removeChar_eq_self_of_not_mem _ _ (no_formatting_contains b hb).1
  rw [convNormalize_eq_minmax, stripFormatting_eq_self a ha,
    stripFormatting_eq_self b hb]
  simp only [msgNormalizeContacts, ra, rb]
  by_cases hemail : containsChar '@' a = true ∧ containsChar '@' b = true
  · rw [if_pos hemail]
    exact sort_two_swap a b
  · rw [if_neg hemail]

/-- C2 witness: concrete unformatted pair on which the two functions agree. -/
theorem normalizeContacts_agree_witness :
    hasFormattingChar (gostr "12") = false ∧
      hasFormattingChar (gostr "3") = false ∧
      msgNormalizeContacts (gostr "12") (gostr "3") =
        convNormalizeContacts (gostr "12") (gostr "3") :=
  ⟨by decide, by decide,
    normalizeContacts_agree_on_unformatted _ _ (by decide) (by decide)⟩

/-- C3 counterexample: the normalization used on the conversation-resolution
path (`messagingService.normalizeContacts`) is not symmetric: on the pair
`("1-2", "12")`, whose `-`-stripped forms coincide, swapping the arguments
swaps the result. -/
theorem normalizeContacts_not_symmetric :
    msgNormalizeContacts (gostr "1-2") (gostr "12") ≠
      msgNormalizeContacts (gostr "12") (gostr "1-2") := by
  decide

/-- C3 (amended): `conversationService.normalizeContacts` is symmetric for
all pairs; `messagingService.normalizeContacts` — the one used to resolve or
create conversations — is symmetric whenever both addresses contain `@`, or
their `-`-stripped forms differ, or the two addresses are equal. -/
theorem normalizeContacts_symmetry_amended :
    (∀ a b : GoStr, convNormalizeContacts a b = convNormalizeContacts b a) ∧
    (∀ a b : GoStr,
      (containsChar '@' a = true ∧ containsChar '@' b = true) ∨
        removeChar '-' a ≠ removeChar '-' b ∨ a = b →
      msgNormalizeContacts a b = msgNormalizeContacts b a) := by
  constructor
  · intro a b
    rw [convNormalize_eq_minmax, convNormalize_eq_minmax]
    cases h1 : goLt (stripFormatting a) (stripFormatting b) with
    | true =>
      have h2 := goLt_asymm _ _ h1
      simp [h1, h2]
    | false =>
      cases h2 : goLt (stripFormatting b) (stripFormatting a) with
      | true => simp [h1, h2]
      | false => simp [h1, h2, goLt_eq_of_not_lt _ _ h1 h2]
  · rintro a b (⟨ha, hb⟩ | h | rfl)
    · exact msgNormalize_comm_of_email a b ha hb
    · exact msgNormalize_comm_of_strip_ne a b h
    · rfl

/-- C3 witness: a concrete pair with distinct `-`-stripped forms on which
the conversation-resolution normalization is symmetric. -/
theorem normalizeContacts_symmetry_witness :
    msgNormalizeContacts (gostr "1-23") (gostr "1-2") =
      msgNormalizeContacts (gostr "1-2") (gostr "1-23") :=
  normalizeContacts_symmetry_amended.2 (gostr "1-23") (gostr "1-2")
    (Or.inr (Or.inl (by decide)))

theorem retryAux_success (cfg : RetryConfig) (op : Nat → Option GoErr) :
    ∀ k attempt fuel, attempt + k ≤ cfg.maxRetries →
      op (attempt + k) = none →
      (∀ i, attempt ≤ i → i < attempt + k → failsRetryable op i) →
      attempt + fuel = cfg.maxRetries + 1 →
      (retryAux cfg op fuel attempt).result = none ∧
        (retryAux cfg op fuel attempt).attempts = k + 1 := by
  intro k
  induction k with
  | zero =>
    intro attempt fuel hle hop _ hfuel
    cases fuel with
    | zero => omega
    | succ f =>
      simp only [Nat.add_zero] at hop
      simp [retryAux, hop]
  | succ k ih =>
    intro attempt fuel hle hop hfail hfuel
    cases fuel with
    | zero => omega
    | succ f =>
      obtain ⟨e, hope, hret⟩ := hfail attempt (Nat.le_refl _) (by omega)
      have hne : ¬ attempt = cfg.maxRetries := by omega
      have hr : ¬ isRetryableErr e = false := by simp [hret]
      have hrec := ih (attempt + 1) f (by omega) (by
          have : attempt + 1 + k = attempt + (k + 1) := by omega
          rw [this]; exact hop)
        (fun i h1 h2 => hfail i (by omega) (by omega)) (by omega)
      simp only [retryAux, hope, if_neg hr, if_neg hne]
      exact ⟨hrec.1, by rw [hrec.2]⟩

theorem retryAux_allfail (cfg : RetryConfig) (op : Nat → Option GoErr)
    (hall : ∀ i, i ≤ cfg.maxRetries → failsRetryable op i) :
    ∀ fuel attempt, attempt + fuel = cfg.maxRetries + 1 → 1 ≤ fuel →
      (retryAux cfg op fuel attempt).result = op cfg.maxRetries ∧
        (retryAux cfg op fuel attempt).attempts = fuel := by
  intro fuel
  induction fuel with
  | zero => omega
  | succ f ih =>
    intro attempt hfuel _
    obtain ⟨e, hope, hret⟩ := hall attempt (by omega)
    have hr : ¬ isRetryableErr e = false := by simp [hret]
    by_cases hlast : attempt = cfg.maxRetries
    · have hf0 : f = 0 := by omega
      subst hf0
      subst hlast
      simp [retryAux, hope, hr]
    · have hrec := ih (attempt + 1) (by omega) (by omega)
      simp only [retryAux, hope, if_neg hr, if_neg hlast]
      exact ⟨hrec.1, by rw [hrec.2]⟩

/-- C6: the retry engine invokes the operation exactly `k+1` times and
succeeds when the operation first succeeds on 0-based attempt
`k ≤ maxRetries` after retryable failures; exactly `maxRetries + 1` times,
surfacing the last error, when every attempt fails with a retryable code;
and exactly once, returning the error immediately, when the first attempt
fails with a non-retryable error. -/
theorem retryWithBackoff_attempt_counts (cfg : RetryConfig)
    (op : Nat → Option GoErr) :
    (∀ k, k ≤ cfg.maxRetries → op k = none →
      (∀ i, i < k → failsRetryable op i) →
      (retryWithBackoff cfg op).result = none ∧
        (retryWithBackoff cfg op).attempts = k + 1) ∧
    ((∀ i, i ≤ cfg.maxRetries → failsRetryable op i) →
      (retryWithBackoff cfg op).result = op cfg.maxRetries ∧
        (retryWithBackoff cfg op).attempts = cfg.maxRetries + 1) ∧
    (∀ e, op 0 = some e → isRetryableErr e = false →
      retryWithBackoff cfg op = ⟨some e, 1, []⟩) := by
  refine ⟨?_, ?_, ?_⟩
  · intro k hk hop hfail
    exact retryAux_success cfg op k 0 (cfg.maxRetries + 1) (by omega)
      (by simpa using hop) (fun i h1 h2 => hfail i (by omega)) (by omega)
  · intro hall
    exact retryAux_allfail cfg op hall (cfg.maxRetries + 1) 0 (by omega)
      (by omega)
  · intro e hop hret
    simp [retryWithBackoff, retryAux, hop, hret]

/-- C6 witness: with the test retry configuration (maxRetries 3), a
succeed-on-third-attempt provider is called 3 times and succeeds, an
always-500 provider is called 4 times and the last error surfaces, and a
400 provider is called exactly once. -/
theorem retryWithBackoff_attempt_counts_witness :
    ((retryWithBackoff cfgTest opThirdTry).result = none ∧
      (retryWithBackoff cfgTest opThirdTry).attempts = 3) ∧
    ((retryWithBackoff cfgTest opAlways500).result = opAlways500 3 ∧
      (retryWithBackoff cfgTest opAlways500).attempts = 4) ∧
    retryWithBackoff cfgTest opBad400 =
      ⟨some (.provider 400 [] 0), 1, []⟩ := by
  refine ⟨?_, ?_, ?_⟩
  · exact (retryWithBackoff_attempt_counts cfgTest opThirdTry).1 2
      (by decide) (by decide)
      (fun i hi => ⟨.provider 503 [] 0, by
        simp only [opThirdTry, if_pos hi], by decide⟩)
  · exact (retryWithBackoff_attempt_counts cfgTest opAlways500).2.1
      (fun i _ => ⟨.provider 500 [] 0, rfl, by decide⟩)
  · exact (retryWithBackoff_attempt_counts cfgTest opBad400).2.2
      (.provider 400 [] 0) rfl (by decide)

theorem wrap64_eq_self (z : Int) (h0 : -9223372036854775808 ≤ z)
    (h1 : z < 9223372036854775808) : wrap64 z = z := by
  unfold wrap64
  omega

theorem ite_gt_min (x y : Int) : (if x > y then y else x) = min x y := by
  rcases le_or_lt x y with h | h
  · rw [if_neg (not_lt.mpr h), min_eq_left h]
  · rw [if_pos h, min_eq_right h.le]

theorem ite_lt_min (x y : Int) : (if x < y then x else y) = min x y := by
  rcases lt_or_le x y with h | h
  · rw [if_pos h, min_eq_left h.le]
  · rw [if_neg (not_lt.mpr h), min_eq_right h]

/-- C7: before each retry, the delay equals `baseDelay * 2^attempt` capped
at `maxDelay`, except that a `ProviderError` with code 429 carrying a
positive retry-after hint overrides it with
`min(retryAfterSeconds, maxDelay)` (in nanoseconds); a retry-after value on
any other code leaves the backoff delay unchanged. The hypotheses exclude
64-bit overflow of the backoff product and of the converted hint. -/
theorem computeDelay_backoff_formula (cfg : RetryConfig) (attempt : Nat)
    (e : GoErr)
    (hb0 : 0 ≤ cfg.baseDelay)
    (hexp : (2 : Int) ^ attempt < 9223372036854775808)
    (hprod : cfg.baseDelay * 2 ^ attempt < 9223372036854775808)
    (hra : getRetryAfterSeconds e * 1000000000 < 9223372036854775808) :
    computeDelay cfg attempt e =
      match rateLimitRetryAfter e with
      | some ra => min (ra * 1000000000) cfg.maxDelay
      | none => min (cfg.baseDelay * 2 ^ attempt) cfg.maxDelay := by
  have hp2 : (0 : Int) ≤ 2 ^ attempt := by positivity
  have w1 : wrap64 ((2 : Int) ^ attempt) = 2 ^ attempt :=
    wrap64_eq_self _ (by omega) hexp
  have w2 : wrap64 (cfg.baseDelay * 2 ^ attempt) =
      cfg.baseDelay * 2 ^ attempt :=
    wrap64_eq_self _ (by nlinarith) hprod
  unfold computeDelay
  rw [w1, w2]
  cases e with
  | generic m =>
    simp only [getRetryAfterSeconds, rateLimitRetryAfter]
    norm_num
    exact ite_gt_min _ _
  | provider c m ra =>
    by_cases hc : c = 429
    · subst hc
      simp only [getRetryAfterSeconds, rateLimitRetryAfter, eq_self_iff_true,
        if_true, true_and, gt_iff_lt] at hra ⊢
      by_cases hra0 : 0 < ra
      · have w3 : wrap64 (ra * 1000000000) = ra * 1000000000 :=
          wrap64_eq_self _ (by nlinarith) hra
        rw [if_pos hra0, w3, if_pos hra0]
        exact ite_lt_min _ _
      · rw [if_neg hra0, if_neg hra0]
        exact ite_gt_min _ _
    · simp only [getRetryAfterSeconds, rateLimitRetryAfter, if_neg hc]
      have hcond : ¬ (c = 429 ∧ 0 < ra) := fun h => hc h.1
      simp only [if_neg hcond]
      norm_num
      exact ite_gt_min _ _

/-- C7 witness: with the test configuration (base delay 10ms, max delay
100ms), a 429 error with a 5-second retry-after hint at attempt 2 yields
the capped hint delay. -/
theorem computeDelay_backoff_formula_witness :
    computeDelay cfgTest 2 (.provider 429 [] 5) =
      match rateLimitRetryAfter (.provider 429 [] 5) with
      | some ra => min (ra * 1000000000) cfgTest.maxDelay
      | none => min (cfgTest.baseDelay * 2 ^ 2) cfgTest.maxDelay :=
  computeDelay_backoff_formula cfgTest 2 (.provider 429 [] 5)
    (by decide) (by decide) (by decide) (by decide)

/-- C8: `validateTimestamp` accepts a timestamp exactly when its location is
UTC, it is not the zero Time, it is at most 5 minutes after `now`, it is not
before `now.AddDate(-10,0,0)` (ten calendar years ago), and it is not before
2000-01-01T00:00:00Z; in particular, at the concrete reference time,
exactly 5 minutes in the future is accepted and 5 minutes 1 second is
rejected as in-the-future. -/
theorem validateTimestamp_policy :
    (∀ now t : GoTime,
      validateTimestamp now t = none ↔
        (t.loc = GoLoc.utc ∧ goTimeIsZero t = false ∧
          t.nsec ≤ now.nsec + 300000000000 ∧
          (addYears now (-10)).nsec ≤ t.nsec ∧
          year2000Nsec ≤ t.nsec)) ∧
    validateTimestamp nowRef ⟨nowRef.nsec + 300000000000, .utc⟩ = none ∧
    validateTimestamp nowRef ⟨nowRef.nsec + 301000000000, .utc⟩ =
      some .inFuture := by
  refine ⟨?_, by decide, by decide⟩
  intro now t
  unfold validateTimestamp
  split_ifs with h1 h2 h3 h4 h5 <;> simp_all

theorem find?_append_none {α : Type} (p : α → Bool) (l1 l2 : List α)
    (h : l1.find? p = none) : (l1 ++ l2).find? p = l2.find? p := by
  induction l1 with
  | nil => rfl
  | cons x xs ih =>
    cases hx : p x
    · simp only [List.cons_append, List.find?_cons, hx] at h ⊢
      exact ih h
    · simp only [List.find?_cons, hx] at h
      exact Option.noConfusion h

theorem getOrCreate_messages (st : Store) (now : GoTime) (a b : GoStr) :
    (getOrCreate st now a b).2.messages = st.messages := by
  unfold getOrCreate convCreate
  split <;> rfl

theorem getOrCreate_nextMsgId (st : Store) (now : GoTime) (a b : GoStr) :
    (getOrCreate st now a b).2.nextMsgId = st.nextMsgId := by
  unfold getOrCreate convCreate
  split <;> rfl

theorem getOrCreate_convs_len (st : Store) (now : GoTime) (a b : GoStr) :
    (getOrCreate st now a b).2.conversations.length ≤
      st.conversations.length + 1 := by
  unfold getOrCreate convCreate
  split
  · exact Nat.le_succ _
  · simp

theorem createMessageRecord_shape (now : GoTime) (st : Store) (m : Message) :
    ∃ mm : Message, mm.messagingProviderId = m.messagingProviderId ∧
      (createMessageRecord now st m).1 = none ∧
      (createMessageRecord now st m).2.messages = st.messages ++ [mm] ∧
      (createMessageRecord now st m).2.conversations.length ≤
        st.conversations.length + 1 := by
  refine ⟨{ m with
      id := st.nextMsgId,
      conversationId := (getOrCreate st now
        (msgNormalizeContacts m.fromAddr m.toAddr).1
        (msgNormalizeContacts m.fromAddr m.toAddr).2).1.id,
      createdAt := now, updatedAt := now }, rfl, rfl, ?_, ?_⟩
  · simp only [createMessageRecord, msgCreate]
    rw [getOrCreate_messages, getOrCreate_nextMsgId]
  · simp only [createMessageRecord, msgCreate]
    simpa using getOrCreate_convs_len st now
      (msgNormalizeContacts m.fromAddr m.toAddr).1
      (msgNormalizeContacts m.fromAddr m.toAddr).2

/-- C4: for a valid inbound webhook whose provider message id is not yet
stored, the first call persists exactly one message and succeeds, and the
identical replay returns success while leaving the store untouched; this
holds for `HandleInboundSMS` keyed on the messaging provider id and for
`HandleInboundEmail` keyed on the XillioID. -/
theorem handleInbound_replay_idempotent :
    (∀ (now : GoTime) (st : Store) (w : InboundSMSWebhook),
      validateInboundSMSWebhook now w = none →
      getByProviderMessageId st w.messagingProviderId = none →
      (handleInboundSMS now st w).1 = none ∧
      (handleInboundSMS now st w).2.messages.length =
        st.messages.length + 1 ∧
      handleInboundSMS now (handleInboundSMS now st w).2 w =
        (none, (handleInboundSMS now st w).2)) ∧
    (∀ (now : GoTime) (st : Store) (w : InboundEmailWebhook),
      validateInboundEmailWebhook now w = none →
      getByProviderMessageId st w.xillioId = none →
      (handleInboundEmail now st w).1 = none ∧
      (handleInboundEmail now st w).2.messages.length =
        st.messages.length + 1 ∧
      handleInboundEmail now (handleInboundEmail now st w).2 w =
        (none, (handleInboundEmail now st w).2)) := by
  constructor
  · intro now st w hval hnone
    obtain ⟨mm, hpid, hfst, hmsgs, _⟩ :=
      createMessageRecord_shape now st
        (buildInboundMessage w.fromAddr w.toAddr w.type w.body
          w.attachments w.timestamp w.messagingProviderId)
    have hpid2 : mm.messagingProviderId = some w.messagingProviderId := hpid
    have h1 : handleInboundSMS now st w =
        createMessageRecord now st
          (buildInboundMessage w.fromAddr w.toAddr w.type w.body
            w.attachments w.timestamp w.messagingProviderId) := by
      unfold handleInboundSMS handleInboundSMSWith
      rw [hval, hnone]
    have hlook : getByProviderMessageId (handleInboundSMS now st w).2
        w.messagingProviderId = some mm := by
      rw [h1]
      unfold getByProviderMessageId at hnone ⊢
      rw [hmsgs, find?_append_none _ _ _ hnone]
      simp [hpid2]
    refine ⟨by rw [h1]; exact hfst, by rw [h1, hmsgs]; simp, ?_⟩
    obtain ⟨st2, hst2⟩ : ∃ s, (handleInboundSMS now st w).2 = s := ⟨_, rfl⟩
    rw [hst2] at hlook ⊢
    unfold handleInboundSMS handleInboundSMSWith
    rw [hval, hlook]
  · intro now st w hval hnone
    obtain ⟨mm, hpid, hfst, hmsgs, _⟩ :=
      createMessageRecord_shape now st
        (buildInboundMessage w.fromAddr w.toAddr (gostr "email") w.body
          w.attachments w.timestamp w.xillioId)
    have hpid2 : mm.messagingProviderId = some w.xillioId := hpid
    have h1 : handleInboundEmail now st w =
        createMessageRecord now st
          (buildInboundMessage w.fromAddr w.toAddr (gostr "email") w.body
            w.attachments w.timestamp w.xillioId) := by
      unfold handleInboundEmail handleInboundEmailWith
      rw [hval, hnone]
    have hlook : getByProviderMessageId (handleInboundEmail now st w).2
        w.xillioId = some mm := by
      rw [h1]
      unfold getByProviderMessageId at hnone ⊢
      rw [hmsgs, find?_append_none _ _ _ hnone]
      simp [hpid2]
    refine ⟨by rw [h1]; exact hfst, by rw [h1, hmsgs]; simp, ?_⟩
    obtain ⟨st2, hst2⟩ : ∃ s, (handleInboundEmail now st w).2 = s := ⟨_, rfl⟩
    rw [hst2] at hlook ⊢
    unfold handleInboundEmail handleInboundEmailWith
    rw [hval, hlook]

/-- C4 witness: concrete webhook replay against the empty store. -/
theorem handleInbound_replay_witness :
    (handleInboundSMS nowRef stEmpty wRef).1 = none ∧
    (handleInboundSMS nowRef stEmpty wRef).2.messages.length =
      stEmpty.messages.length + 1 ∧
    handleInboundSMS nowRef (handleInboundSMS nowRef stEmpty wRef).2 wRef =
      (none, (handleInboundSMS nowRef stEmpty wRef).2) :=
  handleInbound_replay_idempotent.1 nowRef stEmpty wRef
    (by decide) (by decide)

/-- C5: for `SendSMS` and `SendEmail`, a validation failure or an
ultimately-failed provider call returns an error and leaves the store
untouched (no message row, no conversation row), while a successful call
persists exactly one message row and at most one new conversation row. -/
theorem send_persistence :
    (∀ (cfg : RetryConfig) (now : GoTime) (st : Store)
        (req : SendSMSRequest) (op : Nat → Option GoErr),
      (∀ v, validateSMSRequest now req = some v →
        sendSMS cfg now st req op = (some (.invalidRequest v), st)) ∧
      (∀ e, validateSMSRequest now req = none →
        (retryWithBackoff cfg op).result = some e →
        sendSMS cfg now st req op = (some (.providerFailure e), st)) ∧
      (validateSMSRequest now req = none →
        (retryWithBackoff cfg op).result = none →
        (sendSMS cfg now st req op).1 = none ∧
        (sendSMS cfg now st req op).2.messages.length =
          st.messages.length + 1 ∧
        (sendSMS cfg now st req op).2.conversations.length ≤
          st.conversations.length + 1)) ∧
    (∀ (cfg : RetryConfig) (now : GoTime) (st : Store)
        (req : SendEmailRequest) (op : Nat → Option GoErr),
      (∀ v, validateEmailRequest now req = some v →
        sendEmail cfg now st req op = (some (.invalidRequest v), st)) ∧
      (∀ e, validateEmailRequest now req = none →
        (retryWithBackoff cfg op).result = some e →
        sendEmail cfg now st req op = (some (.providerFailure e), st)) ∧
      (validateEmailRequest now req = none →
        (retryWithBackoff cfg op).result = none →
        (sendEmail cfg now st req op).1 = none ∧
        (sendEmail cfg now st req op).2.messages.length =
          st.messages.length + 1 ∧
        (sendEmail cfg now st req op).2.conversations.length ≤
          st.conversations.length + 1)) := by
  constructor
  · intro cfg now st req op
    refine ⟨?_, ?_, ?_⟩
    · intro v hv
      unfold sendSMS
      rw [hv]
    · intro e hval hr
      unfold sendSMS
      rw [hval, hr]
    · intro hval hr
      obtain ⟨mm, _, hfst, hmsgs, hconv⟩ :=
        createMessageRecord_shape now st
          (buildOutboundMessage req.fromAddr req.toAddr req.type req.body
            req.attachments req.timestamp)
      have h1 : sendSMS cfg now st req op =
          createMessageRecord now st
            (buildOutboundMessage req.fromAddr req.toAddr req.type req.body
              req.attachments req.timestamp) := by
        unfold sendSMS
        rw [hval, hr]
      exact ⟨by rw [h1]; exact hfst, by rw [h1, hmsgs]; simp,
        by rw [h1]; exact hconv⟩
  · intro cfg now st req op
    refine ⟨?_, ?_, ?_⟩
    · intro v hv
      unfold sendEmail
      rw [hv]
    · intro e hval hr
      unfold sendEmail
      rw [hval, hr]
    · intro hval hr
      obtain ⟨mm, _, hfst, hmsgs, hconv⟩ :=
        createMessageRecord_shape now st
          (buildOutboundMessage req.fromAddr req.toAddr (gostr "email")
            req.body req.attachments req.timestamp)
      have h1 : sendEmail cfg now st req op =
          createMessageRecord now st
            (buildOutboundMessage req.fromAddr req.toAddr (gostr "email")
              req.body req.attachments req.timestamp) := by
        unfold sendEmail
        rw [hval, hr]
      exact ⟨by rw [h1]; exact hfst, by rw [h1, hmsgs]; simp,
        by rw [h1]; exact hconv⟩

/-- C5 witness: a concrete successful send against the empty store adds one
message row and at most one conversation row. -/
theorem send_persistence_witness :
    (sendSMS cfgTest nowRef stEmpty reqRef opOk).1 = none ∧
    (sendSMS cfgTest nowRef stEmpty reqRef opOk).2.messages.length =
      stEmpty.messages.length + 1 ∧
    (sendSMS cfgTest nowRef stEmpty reqRef opOk).2.conversations.length ≤
      stEmpty.conversations.length + 1 :=
  (send_persistence.1 cfgTest nowRef stEmpty reqRef opOk).2.2
    (by decide) (by decide)

/-- C10: the duplicate-suppression branch of the inbound handlers fires
only when the provider-message-id lookup returns without error and with a
non-nil message; when the lookup returns an error, the idempotency check is
skipped and the webhook is persisted as a new row, so a failing lookup over
a store that already holds the id produces a duplicate. -/
theorem inbound_lookup_error_skips_idempotency :
    (∀ (now : GoTime) (st : Store) (w : InboundSMSWebhook) (emsg : GoStr),
      validateInboundSMSWebhook now w = none →
      (∀ m : Message,
        handleInboundSMSWith now st w (.ok (some m)) = (none, st)) ∧
      (handleInboundSMSWith now st w (.error emsg)).1 = none ∧
      (handleInboundSMSWith now st w (.error emsg)).2.messages.length =
        st.messages.length + 1 ∧
      ((∃ m ∈ st.messages,
          m.messagingProviderId = some w.messagingProviderId) →
        2 ≤ countByProviderId
          (handleInboundSMSWith now st w (.error emsg)).2
          w.messagingProviderId)) ∧
    (∀ (now : GoTime) (st : Store) (w : InboundEmailWebhook) (emsg : GoStr),
      validateInboundEmailWebhook now w = none →
      (∀ m : Message,
        handleInboundEmailWith now st w (.ok (some m)) = (none, st)) ∧
      (handleInboundEmailWith now st w (.error emsg)).1 = none ∧
      (handleInboundEmailWith now st w (.error emsg)).2.messages.length =
        st.messages.length + 1 ∧
      ((∃ m ∈ st.messages, m.messagingProviderId = some w.xillioId) →
        2 ≤ countByProviderId
          (handleInboundEmailWith now st w (.error emsg)).2
          w.xillioId)) := by
  constructor
  · intro now st w emsg hval
    obtain ⟨mm, hpid, hfst, hmsgs, _⟩ :=
      createMessageRecord_shape now st
        (buildInboundMessage w.fromAddr w.toAddr w.type w.body
          w.attachments w.timestamp w.messagingProviderId)
    have hpid2 : mm.messagingProviderId = some w.messagingProviderId := hpid
    have h1 : handleInboundSMSWith now st w (.error emsg) =
        createMessageRecord now st
          (buildInboundMessage w.fromAddr w.toAddr w.type w.body
            w.attachments w.timestamp w.messagingProviderId) := by
      unfold handleInboundSMSWith
      rw [hval]
    refine ⟨?_, by rw [h1]; exact hfst, by rw [h1, hmsgs]; simp, ?_⟩
    · intro m
      unfold handleInboundSMSWith
      rw [hval]
    · rintro ⟨m, hm, hp⟩
      have hone : 1 ≤ countByProviderId st w.messagingProviderId :=
        List.length_pos_of_mem (List.mem_filter.2 ⟨hm, by simp [hp]⟩)
      have hcount : countByProviderId
          (handleInboundSMSWith now st w (.error emsg)).2
          w.messagingProviderId =
          countByProviderId st w.messagingProviderId + 1 := by
        unfold countByProviderId
        rw [h1, hmsgs]
        simp [List.filter_append, hpid2]
      omega
  · intro now st w emsg hval
    obtain ⟨mm, hpid, hfst, hmsgs, _⟩ :=
      createMessageRecord_shape now st
        (buildInboundMessage w.fromAddr w.toAddr (gostr "email") w.body
          w.attachments w.timestamp w.xillioId)
    have hpid2 : mm.messagingProviderId = some w.xillioId := hpid
    have h1 : handleInboundEmailWith now st w (.error emsg) =
        createMessageRecord now st
          (buildInboundMessage w.fromAddr w.toAddr (gostr "email") w.body
            w.attachments w.timestamp w.xillioId) := by
      unfold handleInboundEmailWith
      rw [hval]
    refine ⟨?_, by rw [h1]; exact hfst, by rw [h1, hmsgs]; simp, ?_⟩
    · intro m
      unfold handleInboundEmailWith
      rw [hval]
    · rintro ⟨m, hm, hp⟩
      have hone : 1 ≤ countByProviderId st w.xillioId :=
        List.length_pos_of_mem (List.mem_filter.2 ⟨hm, by simp [hp]⟩)
      have hcount : countByProviderId
          (handleInboundEmailWith now st w (.error emsg)).2 w.xillioId =
          countByProviderId st w.xillioId + 1 := by
        unfold countByProviderId
        rw [h1, hmsgs]
        simp [List.filter_append, hpid2]
      omega

/-- C10 witness: with a store already holding provider id `message-1`, a
failing lookup makes the handler persist the webhook again, yielding two
messages with that provider id. -/
theorem inbound_lookup_error_witness :
    2 ≤ countByProviderId
      (handleInboundSMSWith nowRef stWithMsg wRef
        (.error (gostr "db down"))).2
      wRef.messagingProviderId :=
  ((inbound_lookup_error_skips_idempotency.1 nowRef stWithMsg wRef
      (gostr "db down") (by decide)).2.2.2)
    ⟨msgRef, by decide, by decide⟩

theorem effectiveQuery_fields (q : ConversationQuery) :
    effectiveQuery q =
      ⟨if q.limit ≤ 0 then 50 else q.limit,
        if q.offset < 0 then 0 else q.offset,
        if q.sortBy = [] then gostr "updated_at" else q.sortBy,
        if q.sortOrder = [] then gostr "desc" else q.sortOrder,
        q.includeMessages⟩ := by
  unfold effectiveQuery
  simp only [apply_ite ConversationQuery.limit,
    apply_ite ConversationQuery.offset, apply_ite ConversationQuery.sortBy,
    apply_ite ConversationQuery.sortOrder,
    apply_ite ConversationQuery.includeMessages, ite_self]
  split_ifs <;> rfl

theorem effectiveQuery_limit_pos (q : ConversationQuery) :
    0 < (effectiveQuery q).limit := by
  rw [effectiveQuery_fields]
  by_cases h : q.limit ≤ 0 <;> simp [h]
  all_goals omega

theorem effectiveQuery_offset_nonneg (q : ConversationQuery) :
    0 ≤ (effectiveQuery q).offset := by
  rw [effectiveQuery_fields]
  by_cases h : q.offset < 0 <;> simp [h]
  all_goals omega

theorem tdiv_eq_fdiv_of_nonneg (a b : Int) (ha : 0 ≤ a) (hb : 0 ≤ b) :
    a.tdiv b = a.fdiv b :=
  (Int.fdiv_eq_tdiv ha hb).symm

/-- C9: `GetConversations` applies the defaults `limit=50`, `offset=0`,
`sortBy="updated_at"`, `sortOrder="desc"` when those fields are unset, and
the response satisfies `page = floor(offset/limit) + 1`,
`hasMore = (offset + limit) < total` and `perPage = limit` for the
effective (post-default) values. -/
theorem getConversations_defaults_pagination
    (repoList : ConversationQuery → List Conversation × Int)
    (msgsOf : Nat → List Message) (q : ConversationQuery) :
    ((q.limit = 0 ∧ q.sortBy = [] ∧ q.sortOrder = []) →
      (effectiveQuery q).limit = 50 ∧
        (effectiveQuery q).offset = (if q.offset < 0 then 0 else q.offset) ∧
        (effectiveQuery q).sortBy = gostr "updated_at" ∧
        (effectiveQuery q).sortOrder = gostr "desc") ∧
    (getConversations repoList msgsOf q).page =
      Int.fdiv (effectiveQuery q).offset (effectiveQuery q).limit + 1 ∧
    (getConversations repoList msgsOf q).hasMore =
      decide ((effectiveQuery q).offset + (effectiveQuery q).limit <
        (repoList (effectiveQuery q)).2) ∧
    (getConversations repoList msgsOf q).perPage =
      (effectiveQuery q).limit := by
  refine ⟨?_, ?_, rfl, rfl⟩
  · rintro ⟨h1, h3, h4⟩
    rw [effectiveQuery_fields]
    simp [h1, h3, h4]
  · show Int.tdiv (effectiveQuery q).offset (effectiveQuery q).limit + 1 = _
    rw [tdiv_eq_fdiv_of_nonneg _ _ (effectiveQuery_offset_nonneg q)
      (le_of_lt (effectiveQuery_limit_pos q))]

/-- C9 witness: an entirely-unset query gets the documented defaults, and
against two stored conversations with `limit=1, offset=0` the response has
`page = 1` and `hasMore = true`. -/
theorem getConversations_defaults_witness :
    ((effectiveQuery ⟨0, 0, [], [], false⟩).limit = 50 ∧
      (effectiveQuery ⟨0, 0, [], [], false⟩).offset =
        (if (0 : Int) < 0 then 0 else 0) ∧
      (effectiveQuery ⟨0, 0, [], [], false⟩).sortBy = gostr "updated_at" ∧
      (effectiveQuery ⟨0, 0, [], [], false⟩).sortOrder = gostr "desc") ∧
    (getConversations (fun _ => ([], 2)) (fun _ => [])
      ⟨1, 0, gostr "updated_at", gostr "desc", false⟩).page = 1 ∧
    (getConversations (fun _ => ([], 2)) (fun _ => [])
      ⟨1, 0, gostr "updated_at", gostr "desc", false⟩).hasMore = true :=
  ⟨(getConversations_defaults_pagination (fun _ => ([], 2)) (fun _ => [])
      ⟨0, 0, [], [], false⟩).1 (by decide), by decide, by decide⟩
